import Mathlib

set_option maxHeartbeats 1000000
set_option autoImplicit false
set_option linter.unusedVariables false

/- Verification development for the MovieLens ETL pipeline (src/etl.py).

The Python source is shallowly embedded.  Pure helpers become Lean
functions on character lists (text is modelled as ASCII, so the regular
expression classes for digits and whitespace are read as their ASCII
subsets).  The module-level mutable state of the client (OMDB_CALL_COUNT,
RATE_LIMITED, plus a counter of HTTP GET requests actually issued) becomes
an explicit record threaded through the functions.  The HTTP layer is
modelled by an oracle giving the outcome of the k-th GET request of the
run; an outcome is a raised transport exception, a response whose JSON
decoding raises, or a decoded JSON response with its HTTP status code.
MySQL statements are modelled by their documented conflict semantics on an
explicit table value, and the driver's exception handlers by the exit-code
function at the end of the definitions. -/

namespace MovieETL

/-- Value of a decimal digit character. -/
def digitVal (c : Char) : Nat := c.toNat - 48

/-- ASCII whitespace, as matched by the whitespace class of the regular
expressions in the source and by str.strip (ASCII model). -/
def isSpace (c : Char) : Bool :=
  c = ' ' || c = '\t' || c = '\n' || c = '\r' || c.toNat = 11 || c.toNat = 12

/-- Remove leading whitespace. -/
def lstripL (l : List Char) : List Char := l.dropWhile isSpace

/-- Remove trailing whitespace. -/
def rstripL (l : List Char) : List Char := (l.reverse.dropWhile isSpace).reverse

/-- Python str.strip in the ASCII model. -/
def stripL (l : List Char) : List Char := lstripL (rstripL l)

/-- Anchored match of the pattern open-paren, four digits, close-paren at the
head of the list: one scan step of re.search in extract_year_from_title
(src/etl.py line 76), returning the integer value of the digit group. -/
def yearAt : List Char → Option Nat
  | c0 :: d1 :: d2 :: d3 :: d4 :: c5 :: _ =>
    if c0 = '(' ∧ d1.isDigit ∧ d2.isDigit ∧ d3.isDigit ∧ d4.isDigit ∧ c5 = ')' then
      some ((((digitVal d1) * 10 + digitVal d2) * 10 + digitVal d3) * 10 + digitVal d4)
    else none
  | _ => none

/-- re.search scans left to right for the first position where the pattern
matches (extract_year_from_title, src/etl.py lines 73-82). -/
def extractYearL : List Char → Option Nat
  | [] => none
  | c :: rest =>
    match yearAt (c :: rest) with
    | some y => some y
    | none => extractYearL rest

/-- Whether the list ends with an open-paren, four digits and a close-paren:
the trailing-parenthetical test of the anchored regular expression in
clean_title_for_query (src/etl.py line 88), applied after trailing
whitespace has been removed. -/
def endsYearParen (l : List Char) : Bool :=
  match l.reverse with
  | c5 :: d4 :: d3 :: d2 :: d1 :: c0 :: _ =>
    decide (c5 = ')') && decide (c0 = '(') &&
      d1.isDigit && d2.isDigit && d3.isDigit && d4.isDigit
  | _ => false

/-- clean_title_for_query (src/etl.py lines 85-88): re.sub removes the
leftmost match of whitespace, a parenthesized four-digit year, then
whitespace anchored at the end of the string; such a match exists exactly
when the right-trimmed title ends with the parenthetical, and the removal
deletes the parenthetical together with the whitespace around it.  The
result is then stripped. -/
def cleanTitleL (l : List Char) : List Char :=
  let r := rstripL l
  if endsYearParen r then stripL (r.take (r.length - 6)) else stripL l

/-- A Python value that may or may not be a string; the source guards both
title helpers with isinstance(title, str). -/
inductive PyVal where
  | str (s : String)
  | nonStr
deriving DecidableEq

/-- extract_year_from_title (src/etl.py lines 73-82). -/
def extract_year_from_title : PyVal → Option Nat
  | .str s => extractYearL s.data
  | .nonStr => none

/-- clean_title_for_query (src/etl.py lines 85-88). -/
def clean_title_for_query : PyVal → String
  | .str s => String.mk (cleanTitleL s.data)
  | .nonStr => ""

/-- One row of the ratings table; rating is a decimal, timestamp a MySQL
DATETIME string or NULL, as produced by the chunked loader. -/
structure RatingRow where
  userId : Int
  movieId : Int
  rating : Rat
  timestamp : Option String
deriving DecidableEq

/-- Semantics of insert_rating_query (src/etl.py lines 283-289): INSERT with,
on conflict on the UNIQUE (userId, movieId) identity, rating overwritten by
the incoming value and timestamp overwritten only when the incoming value is
not NULL. -/
def upsertRating (t : List RatingRow) (n : RatingRow) : List RatingRow :=
  if t.any (fun r => decide (r.userId = n.userId) && decide (r.movieId = n.movieId)) then
    t.map (fun r =>
      if r.userId = n.userId ∧ r.movieId = n.movieId then
        { r with rating := n.rating,
                 timestamp := match n.timestamp with
                   | some v => some v
                   | none => r.timestamp }
      else r)
  else t ++ [n]

/-- Lookup of the row with the given (userId, movieId) identity. -/
def findRating (t : List RatingRow) (u m : Int) : Option RatingRow :=
  t.find? (fun r => decide (r.userId = u) && decide (r.movieId = m))

/-- The fields of a decoded OMDb JSON response that the source reads:
the success flag (Response equal to the string True), presence of the
Search key, the imdbID of each search result, and the payload fields used
by enrich_movie. -/
structure OmdbJson where
  responseTrue : Bool
  hasSearch : Bool
  search : List (Option String)
  director : Option String
  plot : Option String
  boxOffice : Option String
  year : Option String
  imdbID : Option String
deriving DecidableEq

/-- Outcome of one session.get: a transport-layer exception (after the
adapter's retries), a response whose .json() raises, or a decoded response
with its status code. -/
inductive HttpOutcome where
  | exn
  | badJson (status : Nat)
  | resp (status : Nat) (body : OmdbJson)
deriving DecidableEq

/-- The environment: outcome of the k-th GET request issued in the run. -/
abbrev Oracle := Nat → HttpOutcome

/-- The module-level mutable client state: OMDB_CALL_COUNT, RATE_LIMITED,
and the number of GET requests actually issued so far (the index into the
oracle). -/
structure RunSt where
  omdbCallCount : Nat
  rateLimited : Bool
  getIndex : Nat
deriving DecidableEq

/-- OMDB_DAILY_LIMIT (src/etl.py line 24). -/
def OMDB_DAILY_LIMIT : Nat := 1000

/-- The HTTP status carried by an outcome, if a response was received. -/
def outcomeStatus : HttpOutcome → Option Nat
  | .exn => none
  | .badJson s => some s
  | .resp s _ => some s

/-- State after a session.get that raised: the request was issued but
OMDB_CALL_COUNT is not reached (the increment follows the call). -/
def bumpExn (st : RunSt) : RunSt := { st with getIndex := st.getIndex + 1 }

/-- State after a session.get that returned: the request was issued and
OMDB_CALL_COUNT is incremented. -/
def bumpReq (st : RunSt) : RunSt :=
  { st with getIndex := st.getIndex + 1, omdbCallCount := st.omdbCallCount + 1 }

/-- The follow-up lookup-by-id request of query_omdb (src/etl.py lines
130-134); its status code is not examined. -/
def idLookup (oracle : Oracle) (st2 : RunSt) : Option OmdbJson × RunSt :=
  match oracle st2.getIndex with
  | .exn => (none, bumpExn st2)
  | .badJson _ => (none, bumpReq st2)
  | .resp _ ibody =>
    if ibody.responseTrue then (some ibody, bumpReq st2) else (none, bumpReq st2)

/-- The fallback-to-search block of query_omdb (src/etl.py lines 121-135):
issue the search request (its status code is not examined); when the decoded
body has the success flag and the Search key, take the first candidate (an
empty candidate list raises, which the enclosing handler turns into None)
and run the lookup by id. -/
def searchLookup (oracle : Oracle) (st1 : RunSt) : Option OmdbJson × RunSt :=
  match oracle st1.getIndex with
  | .exn => (none, bumpExn st1)
  | .badJson _ => (none, bumpReq st1)
  | .resp _ sbody =>
    if sbody.responseTrue ∧ sbody.hasSearch then
      match sbody.search with
      | [] => (none, bumpReq st1)
      | _ :: _ => idLookup oracle (bumpReq st1)
    else (none, bumpReq st1)

/-- query_omdb (src/etl.py lines 91-139).  The call-count guard runs first;
then the missing-key guard; then up to three GET requests: lookup by title,
search by title, and lookup by the first search result's id.  Only the first
response's status code is compared against 401.  OMDB_CALL_COUNT is
incremented after each successful session.get, and every exception raised
inside the body is caught and turned into a None result.  The title and year
arguments only shape the request parameters, which the oracle abstracts. -/
def queryOmdb (apiKeyPresent : Bool) (oracle : Oracle) (title : List Char)
    (year : Option Nat) (st : RunSt) : Option OmdbJson × RunSt :=
  if OMDB_DAILY_LIMIT ≤ st.omdbCallCount then
    (none, { st with rateLimited := true })
  else if !apiKeyPresent then
    (none, st)
  else
    match oracle st.getIndex with
    | .exn => (none, bumpExn st)
    | .badJson status =>
      if status = 401 then (none, { bumpReq st with rateLimited := true })
      else (none, bumpReq st)
    | .resp status body =>
      if status = 401 then (none, { bumpReq st with rateLimited := true })
      else if body.responseTrue then (some body, bumpReq st)
      else searchLookup oracle (bumpReq st)

/-- Normalization of the sentinel value used by enrich_movie: a missing field
or the string N/A becomes None. -/
def normNA : Option String → Option String
  | none => none
  | some s => if s = "N/A" then none else some s

/-- Decimal value of a digit list. -/
def digitsToNat (l : List Char) : Nat := l.foldl (fun a c => a * 10 + digitVal c) 0

/-- The Year field handling of enrich_movie: the field is used as an integer
only when it is a truthy all-digit string (str.isdigit, ASCII model). -/
def parseYearField : Option String → Option Nat
  | none => none
  | some s => if s.data ≠ [] ∧ s.data.all Char.isDigit then some (digitsToNat s.data) else none

/-- The enrichment record built by enrich_movie (src/etl.py lines 170-178). -/
structure Enriched where
  director : Option String
  plot : Option String
  box_office : Option String
  year : Option Nat
  imdb_id : Option String
  raw : OmdbJson
  enriched_at : String
deriving DecidableEq

/-- Construction of the enrichment record from a successful response; year
falls back to the year extracted from the title, and enriched_at records the
current UTC time, passed here as a parameter. -/
def mkEnriched (data : OmdbJson) (year : Option Nat) (now : String) : Enriched :=
  { director := normNA data.director,
    plot := normNA data.plot,
    box_office := normNA data.boxOffice,
    year := match parseYearField data.year with
            | some n => some n
            | none => year,
    imdb_id := data.imdbID,
    raw := data,
    enriched_at := now }

/-- The OMDb cache: the JSON object of omdb_cache.json, a mapping from key
strings to an enrichment record or null. -/
abbrev Cache := List (String × Option Enriched)

/-- Python dict lookup by key. -/
def cacheGet : Cache → String → Option (Option Enriched)
  | [], _ => none
  | (k, v) :: rest, key => if k = key then some v else cacheGet rest key

/-- Python dict assignment: replace the value if the key is present,
otherwise append the new binding. -/
def dictSet (m : Cache) (k : String) (v : Option Enriched) : Cache :=
  if (cacheGet m k).isSome then
    m.map (fun p => if p.1 = k then (k, v) else p)
  else m ++ [(k, v)]

/-- Python truthiness of the optional year integer. -/
def yearTruthy : Option Nat → Bool
  | some n => decide (n ≠ 0)
  | none => false

/-- The year part of the cache key: the formatted year when truthy, the empty
string otherwise. -/
def yearKeyStr : Option Nat → String
  | some n => if n = 0 then ("") else Nat.repr n
  | none => ""

/-- The cache key computed by enrich_movie (src/etl.py line 148): the clean
title, two underscores, and the year part. -/
def enrichKey (title : PyVal) : String :=
  clean_title_for_query title ++ "__" ++ yearKeyStr (extract_year_from_title title)

/-- The alternative title of the fallback: re.split on colon, hyphen or
en-dash, first part, stripped (src/etl.py line 164). -/
def altTitle (clean : List Char) : List Char :=
  stripL (clean.takeWhile (fun c => !(c == ':' || c == '-' || c == '–')))

/-- The query cascade of enrich_movie (src/etl.py lines 158-166): clean
title with the extracted year when the year is truthy, then the clean title
alone, then, when the alternative title is truthy and differs from the clean
title, the alternative with the year and without it; each step runs only
while the previous ones returned None.  The third component records the
query_omdb invocations with their arguments. -/
def omdbFallback (kp : Bool) (o : Oracle) (clean : List Char) (year : Option Nat)
    (st : RunSt) : Option OmdbJson × RunSt × List (List Char × Option Nat) :=
  let r1 : Option OmdbJson × RunSt × List (List Char × Option Nat) :=
    if yearTruthy year then
      let q := queryOmdb kp o clean year st
      (q.1, q.2, [(clean, year)])
    else (none, st, [])
  match r1.1 with
  | some d => (some d, r1.2.1, r1.2.2)
  | none =>
    let q2 := queryOmdb kp o clean none r1.2.1
    let a2 := r1.2.2 ++ [(clean, none)]
    match q2.1 with
    | some d => (some d, q2.2, a2)
    | none =>
      let alt := altTitle clean
      if alt ≠ [] ∧ alt ≠ clean then
        let q3 := queryOmdb kp o alt year q2.2
        match q3.1 with
        | some d => (some d, q3.2, a2 ++ [(alt, year)])
        | none =>
          let q4 := queryOmdb kp o alt none q3.2
          (q4.1, q4.2, a2 ++ [(alt, year), (alt, none)])
      else (none, q2.2, a2)

/-- Result of one enrich_movie call: the returned record, the cache and
client state after the call, and the list of query_omdb invocations made. -/
structure EnrichResult where
  result : Option Enriched
  cache : Cache
  st : RunSt
  attempts : List (List Char × Option Nat)
deriving DecidableEq

/-- enrich_movie (src/etl.py lines 142-185): compute year, clean title and
key; on a cache hit return the cached value; with no API key cache and
return None; otherwise run the query cascade, build the record on success,
cache the record or None, and return it (the inter-call sleep has no
observable effect in the model). -/
def enrichMovie (kp : Bool) (o : Oracle) (now : String) (title : PyVal)
    (cache : Cache) (st : RunSt) : EnrichResult :=
  let year := extract_year_from_title title
  let clean := (clean_title_for_query title).data
  let key := enrichKey title
  match cacheGet cache key with
  | some v => ⟨v, cache, st, []⟩
  | none =>
    if !kp then ⟨none, dictSet cache key none, st, []⟩
    else
      let r := omdbFallback kp o clean year st
      let enriched := r.1.map (fun d => mkEnriched d year now)
      ⟨enriched, dictSet cache key enriched, r.2.1, r.2.2⟩

/-- The candidate query list described by the specification's fallback rule.
With strictNonempty the alternative-title branch additionally requires the
prefix to be nonempty, as the code does; without it the branch only requires
the prefix to differ from the clean title, as the claim words it. -/
def specCandidates (clean : List Char) (year : Option Nat) (strictNonempty : Bool) :
    List (List Char × Option Nat) :=
  let alt := altTitle clean
  (if yearTruthy year then [(clean, year)] else []) ++ [(clean, none)] ++
    (if (strictNonempty = false ∨ alt ≠ []) ∧ alt ≠ clean then
      [(alt, year), (alt, none)] else [])

/-- The specification's in-order, stop-at-first-success walk over a candidate
query list, with query_omdb as the lookup primitive (refinement target for
the fallback-order claim). -/
def attemptWalk (kp : Bool) (o : Oracle) :
    RunSt → List (List Char × Option Nat) →
      Option OmdbJson × RunSt × List (List Char × Option Nat)
  | st, [] => (none, st, [])
  | st, (t, y) :: rest =>
    let q := queryOmdb kp o t y st
    match q.1 with
    | some d => (some d, q.2, [(t, y)])
    | none =>
      let w := attemptWalk kp o q.2 rest
      (w.1, w.2.1, (t, y) :: w.2.2)

/-- One row of movies.csv as read by the loop: movieId as coerced by int
(None when the coercion raises and the row is skipped), the title value and
the genres value. -/
structure MovieRow where
  movieId : Option Int
  title : PyVal
  genres : Option String
deriving DecidableEq

/-- State of the movie-loading loop in main (src/etl.py lines 294-356):
client state, cache, the processed-row counter, the enrichment counter, and
logs of the attempted base upserts and enrichment updates, in order. -/
structure LoopState where
  st : RunSt
  cache : Cache
  total : Nat
  enrichedCount : Nat
  upserts : List (Int × PyVal × Option String)
  enrichUpdates : List Int
deriving DecidableEq

/-- Loop state at entry to the movie loop. -/
def loopInit (cache : Cache) : LoopState := ⟨⟨0, false, 0⟩, cache, 0, 0, [], []⟩

/-- The optional row-count limit test of the loop. -/
def limitReached (limit : Option Nat) (total : Nat) : Bool :=
  match limit with
  | some l => decide (l ≤ total)
  | none => false

/-- The body of one movie-loop iteration for a row whose movieId coerced
(src/etl.py lines 307-356): log the base upsert; unless no_enrich is set
run enrich_movie; count and log an enrichment update when a record was
returned; advance the processed-row counter.  Periodic commits and cache
saves only log and are not observable in the model; row-level database
failures are caught in the source and only affect logging. -/
def loopStep (kp : Bool) (o : Oracle) (now : String) (noEnrich : Bool)
    (row : MovieRow) (mid : Int) (s : LoopState) : LoopState :=
  let s1 : LoopState := { s with upserts := s.upserts ++ [(mid, row.title, row.genres)] }
  let e : Option Enriched × Cache × RunSt :=
    if noEnrich then (none, s1.cache, s1.st)
    else
      let r := enrichMovie kp o now row.title s1.cache s1.st
      (r.result, r.cache, r.st)
  { s1 with
    cache := e.2.1,
    st := e.2.2,
    enrichedCount := if e.1.isSome then s1.enrichedCount + 1 else s1.enrichedCount,
    enrichUpdates := if e.1.isSome then s1.enrichUpdates ++ [mid] else s1.enrichUpdates,
    total := s1.total + 1 }

/-- The movie loop of main (src/etl.py lines 299-356): stop when RATE_LIMITED
is set or the row limit is reached; skip rows whose movieId fails coercion
(the processed-row counter is not advanced for them); otherwise run the loop
body and continue. -/
def movieLoop (kp : Bool) (o : Oracle) (now : String) (noEnrich : Bool)
    (limit : Option Nat) : List MovieRow → LoopState → LoopState
  | [], s => s
  | row :: rest, s =>
    if s.st.rateLimited then s
    else if limitReached limit s.total then s
    else
      match row.movieId with
      | none => movieLoop kp o now noEnrich limit rest s
      | some mid => movieLoop kp o now noEnrich limit rest (loopStep kp o now noEnrich row mid s)

/-- Outcome of the initial database connection attempt: success, an error of
the database-error class (caught by the handler at src/etl.py line 237), or
an exception of any other class (uncaught). -/
inductive ConnOutcome where
  | ok
  | dbError
  | otherError
deriving DecidableEq

/-- Process exit status: zero for a normal return of main, nonzero when an
exception propagates out of main. -/
inductive ExitCode where
  | zero
  | nonzero
deriving DecidableEq

/-- The run conditions of main that its exception handlers examine: the
connection outcome, whether the recreate-ratings step raised (its rename
substep failing is caught and non-fatal, so only the table-existence check,
creation or commit raising counts), presence of the input files, the movie
rows and initial cache, an operator interrupt during the movie loop, and the
per-chunk and final-commit failures of the ratings phase (each caught). -/
structure MainEnv where
  conn : ConnOutcome
  recreateFatal : Bool
  moviesPresent : Bool
  movies : List MovieRow
  initialCache : Cache
  ratingsPresent : Bool
  interrupted : Bool
  chunkFailures : List Bool
  finalCommitFails : Bool
deriving DecidableEq

/-- The exit status of main (src/etl.py lines 223-445).  A database error on
connection is caught and main returns (exit zero); any other connection
exception propagates.  A raise inside recreate_ratings_table_if_requested
propagates (src/etl.py line 220).  A missing movies.csv is caught and main
returns.  The movie loop, interrupt handling, ratings chunks and the final
commit are all wrapped in handlers and cannot raise, so every remaining path
returns normally. -/
def mainExit (env : MainEnv) (kp : Bool) (o : Oracle) (now : String)
    (noEnrich : Bool) (limit : Option Nat) (recreateRatings : Bool) : ExitCode :=
  match env.conn with
  | .dbError => .zero
  | .otherError => .nonzero
  | .ok =>
    if recreateRatings && env.recreateFatal then .nonzero
    else if !env.moviesPresent then .zero
    else
      let _final := movieLoop kp o now noEnrich limit env.movies (loopInit env.initialCache)
      .zero

/-- Specification-side predicate: the character list carries a parenthesized
four-digit year starting at index i, of value y. -/
def YearOccAt (l : List Char) (i : Nat) (y : Nat) : Prop :=
  ∃ d1 d2 d3 d4 rest, l.drop i = '(' :: d1 :: d2 :: d3 :: d4 :: ')' :: rest ∧
    d1.isDigit = true ∧ d2.isDigit = true ∧ d3.isDigit = true ∧ d4.isDigit = true ∧
    y = (((digitVal d1) * 10 + digitVal d2) * 10 + digitVal d3) * 10 + digitVal d4

/-- Specification-side predicate: the title decomposes as a prefix p, then
whitespace, a parenthesized four-digit year, and trailing whitespace. -/
def TrailingYearDecomp (l p : List Char) : Prop :=
  ∃ w1 d1 d2 d3 d4 w2,
    (∀ c ∈ w1, isSpace c = true) ∧ (∀ c ∈ w2, isSpace c = true) ∧
    d1.isDigit = true ∧ d2.isDigit = true ∧ d3.isDigit = true ∧ d4.isDigit = true ∧
    l = p ++ w1 ++ '(' :: d1 :: d2 :: d3 :: d4 :: ')' :: w2

/-- A decoded response with the success flag false and no payload. -/
def failBody : OmdbJson := ⟨false, false, [], none, none, none, none, none⟩

/-- A decoded successful response with no payload fields. -/
def okBody : OmdbJson := ⟨true, false, [], none, none, none, none, none⟩

/-- A decoded successful search response carrying one candidate id. -/
def searchBody : OmdbJson := ⟨true, true, [some ("tt0000001")], none, none, none, none, none⟩

/-- An environment in which every request gets an unsuccessful response. -/
def failOracle : Oracle := fun _ => .resp 200 failBody

/-- An environment driving one query_omdb call through all three requests:
failed title lookup, successful search, successful id lookup. -/
def overshootOracle : Oracle := fun k =>
  if k = 0 then .resp 200 failBody
  else if k = 1 then .resp 200 searchBody
  else .resp 200 okBody

/-- An environment answering 401 to every request. -/
def all401Oracle : Oracle := fun _ => .resp 401 failBody

/-- An environment whose first response is an unsuccessful 200 and whose
later responses are 401. -/
def search401Oracle : Oracle := fun k =>
  if k = 0 then .resp 200 failBody else .resp 401 failBody

/-- Two concrete movie rows. -/
def cexRows : List MovieRow :=
  [⟨some 1, .str ("A"), some ("X")⟩, ⟨some 2, .str ("B"), some ("Y")⟩]

/-- Once the call budget is exhausted, query_omdb returns immediately: it
sets the flag, issues no request and leaves the counters unchanged. -/
theorem queryOmdb_limited (kp : Bool) (o : Oracle) (t : List Char) (y : Option Nat)
    (st : RunSt) (h : OMDB_DAILY_LIMIT ≤ st.omdbCallCount) :
    queryOmdb kp o t y st = (none, { st with rateLimited := true }) := by
  simp [queryOmdb, h]

/-- The lookup by id issues one request. -/
theorem idLookup_count_le (o : Oracle) (st2 : RunSt) :
    (idLookup o st2).2.omdbCallCount ≤ st2.omdbCallCount + 1 := by
  unfold idLookup
  cases ho : o st2.getIndex with
  | exn => simp [bumpExn]
  | badJson s => simp [bumpReq]
  | resp s b =>
    simp only []
    split <;> simp [bumpReq]

/-- The search block issues at most two requests. -/
theorem searchLookup_count_le (o : Oracle) (st1 : RunSt) :
    (searchLookup o st1).2.omdbCallCount ≤ st1.omdbCallCount + 2 := by
  unfold searchLookup
  cases ho : o st1.getIndex with
  | exn => simp [bumpExn]
  | badJson s => simp [bumpReq]
  | resp s b =>
    simp only []
    split
    · cases hs : b.search with
      | nil => simp [bumpReq]
      | cons hd tl =>
        simp only []
        have h := idLookup_count_le o (bumpReq st1)
        simp [bumpReq] at h ⊢
        omega
    · simp [bumpReq]

/-- One query_omdb call increments the counter by at most three. -/
theorem queryOmdb_count_le (kp : Bool) (o : Oracle) (t : List Char) (y : Option Nat)
    (st : RunSt) :
    (queryOmdb kp o t y st).2.omdbCallCount ≤ st.omdbCallCount + 3 := by
  unfold queryOmdb
  split
  · simp
  · split
    · simp
    · cases ho : o st.getIndex with
      | exn => simp [bumpExn]
      | badJson s =>
        simp only []
        split <;> simp [bumpReq]
      | resp s b =>
        simp only []
        split
        · simp [bumpReq]
        · split
          · simp [bumpReq]
          · have h := searchLookup_count_le o (bumpReq st)
            simp [bumpReq] at h ⊢
            omega

/-- The counter never exceeds the daily limit plus two: calls that start at
or above the limit do not touch it, calls below the limit add at most
three. -/
theorem queryOmdb_count_preserve (kp : Bool) (o : Oracle) (t : List Char)
    (y : Option Nat) (st : RunSt) (h : st.omdbCallCount ≤ OMDB_DAILY_LIMIT + 2) :
    (queryOmdb kp o t y st).2.omdbCallCount ≤ OMDB_DAILY_LIMIT + 2 := by
  by_cases hl : OMDB_DAILY_LIMIT ≤ st.omdbCallCount
  · rw [queryOmdb_limited kp o t y st hl]
    exact h
  · have h3 := queryOmdb_count_le kp o t y st
    have hlt : st.omdbCallCount < OMDB_DAILY_LIMIT := Nat.lt_of_not_le hl
    omega

/-- The code's query cascade equals the specification's stop-at-first-success
walk over the candidate list with the strict nonemptiness guard. -/
theorem fallback_eq_walk (kp : Bool) (o : Oracle) (clean : List Char)
    (year : Option Nat) (st : RunSt) :
    omdbFallback kp o clean year st = attemptWalk kp o st (specCandidates clean year true) := by
  unfold omdbFallback specCandidates
  cases hy : yearTruthy year <;>
    simp only [hy, Bool.false_eq_true, if_false, if_true, Bool.true_eq_false, false_or,
      List.nil_append, List.cons_append, List.append_nil, attemptWalk]
  · cases hq2 : (queryOmdb kp o clean none st).1 with
    | some d => simp [hq2]
    | none =>
      simp only [hq2]
      by_cases halt : altTitle clean ≠ [] ∧ altTitle clean ≠ clean
      · rw [if_pos halt, if_pos halt]
        simp only [attemptWalk]
        cases hq3 : (queryOmdb kp o (altTitle clean) year (queryOmdb kp o clean none st).2).1 with
        | some d => simp [hq3]
        | none =>
          simp only [hq3, attemptWalk]
          cases hq4 : (queryOmdb kp o (altTitle clean) none
              (queryOmdb kp o (altTitle clean) year (queryOmdb kp o clean none st).2).2).1 with
          | some d => simp [hq4, attemptWalk]
          | none => simp [hq4, attemptWalk]
      · rw [if_neg halt, if_neg halt]
        simp [attemptWalk]
  · cases hq1 : (queryOmdb kp o clean year st).1 with
    | some d => simp [hq1]
    | none =>
      simp only [hq1, attemptWalk]
      cases hq2 : (queryOmdb kp o clean none (queryOmdb kp o clean year st).2).1 with
      | some d => simp [hq2, attemptWalk]
      | none =>
        simp only [hq2, attemptWalk]
        by_cases halt : altTitle clean ≠ [] ∧ altTitle clean ≠ clean
        · rw [if_pos halt, if_pos halt]
          simp only [attemptWalk]
          cases hq3 : (queryOmdb kp o (altTitle clean) year
              (queryOmdb kp o clean none (queryOmdb kp o clean year st).2).2).1 with
          | some d => simp [hq3]
          | none =>
            simp only [hq3, attemptWalk]
            cases hq4 : (queryOmdb kp o (altTitle clean) none
                (queryOmdb kp o (altTitle clean) year
                  (queryOmdb kp o clean none (queryOmdb kp o clean year st).2).2).2).1 with
            | some d => simp [hq4, attemptWalk]
            | none => simp [hq4, attemptWalk]
        · rw [if_neg halt, if_neg halt]
          simp [attemptWalk]

/-- A walk started with an exhausted budget gets no result and leaves the
counters unchanged. -/
theorem attemptWalk_frozen (kp : Bool) (o : Oracle) (l : List (List Char × Option Nat))
    (st : RunSt) (h : OMDB_DAILY_LIMIT ≤ st.omdbCallCount) :
    (attemptWalk kp o st l).1 = none ∧
    (attemptWalk kp o st l).2.1.omdbCallCount = st.omdbCallCount ∧
    (attemptWalk kp o st l).2.1.getIndex = st.getIndex := by
  induction l generalizing st with
  | nil => simp [attemptWalk]
  | cons hd tl ih =>
    obtain ⟨t, y⟩ := hd
    have hq := queryOmdb_limited kp o t y st h
    have ih2 := ih { st with rateLimited := true } h
    simp only [attemptWalk, hq]
    exact ⟨ih2.1, ih2.2.1, ih2.2.2⟩

/-- A walk preserves the counter bound of the daily limit plus two. -/
theorem attemptWalk_count_preserve (kp : Bool) (o : Oracle)
    (l : List (List Char × Option Nat)) (st : RunSt)
    (h : st.omdbCallCount ≤ OMDB_DAILY_LIMIT + 2) :
    (attemptWalk kp o st l).2.1.omdbCallCount ≤ OMDB_DAILY_LIMIT + 2 := by
  induction l generalizing st with
  | nil => simpa [attemptWalk]
  | cons hd tl ih =>
    obtain ⟨t, y⟩ := hd
    simp only [attemptWalk]
    cases hq : (queryOmdb kp o t y st).1 with
    | none =>
      simp only [hq]
      exact ih _ (queryOmdb_count_preserve kp o t y st h)
    | some d =>
      simp only [hq]
      exact queryOmdb_count_preserve kp o t y st h

/-- The query cascade under an exhausted budget: no result and unchanged
counters. -/
theorem fallback_frozen (kp : Bool) (o : Oracle) (clean : List Char)
    (year : Option Nat) (st : RunSt) (h : OMDB_DAILY_LIMIT ≤ st.omdbCallCount) :
    (omdbFallback kp o clean year st).1 = none ∧
    (omdbFallback kp o clean year st).2.1.omdbCallCount = st.omdbCallCount ∧
    (omdbFallback kp o clean year st).2.1.getIndex = st.getIndex := by
  rw [fallback_eq_walk]
  exact attemptWalk_frozen kp o _ st h

/-- The query cascade preserves the counter bound of the daily limit plus
two. -/
theorem fallback_count_preserve (kp : Bool) (o : Oracle) (clean : List Char)
    (year : Option Nat) (st : RunSt) (h : st.omdbCallCount ≤ OMDB_DAILY_LIMIT + 2) :
    (omdbFallback kp o clean year st).2.1.omdbCallCount ≤ OMDB_DAILY_LIMIT + 2 := by
  rw [fallback_eq_walk]
  exact attemptWalk_count_preserve kp o _ st h

/-- Appending a fresh binding makes it visible under its key. -/
theorem cacheGet_append_fresh (m : Cache) (k : String) (v : Option Enriched)
    (h : cacheGet m k = none) : cacheGet (m ++ [(k, v)]) k = some v := by
  induction m with
  | nil => simp [cacheGet]
  | cons p rest ih =>
    obtain ⟨k', v'⟩ := p
    by_cases hk : k' = k
    · simp [cacheGet, hk] at h
    · simp only [cacheGet, hk, if_neg hk, List.cons_append] at h ⊢
      exact ih h

/-- Existing bindings stay visible after appending. -/
theorem cacheGet_append_mono (m m2 : Cache) (k : String) (v : Option Enriched)
    (h : cacheGet m k = some v) : cacheGet (m ++ m2) k = some v := by
  induction m with
  | nil => simp [cacheGet] at h
  | cons p rest ih =>
    obtain ⟨k', v'⟩ := p
    by_cases hk : k' = k
    · simp only [cacheGet, if_pos hk, List.cons_append] at h ⊢
      exact h
    · simp only [cacheGet, if_neg hk, List.cons_append] at h ⊢
      exact ih h

/-- Assignment of an absent key is an append. -/
theorem dictSet_absent (m : Cache) (k : String) (v : Option Enriched)
    (h : cacheGet m k = none) : dictSet m k v = m ++ [(k, v)] := by
  simp [dictSet, h]

/-- On a cache hit, enrich_movie returns the cached value unchanged state,
cache and all, without invoking query_omdb. -/
theorem enrichMovie_hit (kp : Bool) (o : Oracle) (now : String) (title : PyVal)
    (cache : Cache) (st : RunSt) (v : Option Enriched)
    (h : cacheGet cache (enrichKey title) = some v) :
    enrichMovie kp o now title cache st = ⟨v, cache, st, []⟩ := by
  unfold enrichMovie
  simp [h]

/-- After any enrich_movie call the computed key is bound to exactly the
returned value. -/
theorem enrichMovie_caches (kp : Bool) (o : Oracle) (now : String) (title : PyVal)
    (cache : Cache) (st : RunSt) :
    cacheGet (enrichMovie kp o now title cache st).cache (enrichKey title) =
      some (enrichMovie kp o now title cache st).result := by
  unfold enrichMovie
  cases h : cacheGet cache (enrichKey title) with
  | some v => simp [h]
  | none =>
    cases hk : kp <;>
      simp [h, dictSet_absent _ _ _ h, cacheGet_append_fresh _ _ _ h]

/-- enrich_movie never removes or overwrites an existing cache binding. -/
theorem enrichMovie_mono (kp : Bool) (o : Oracle) (now : String) (title : PyVal)
    (cache : Cache) (st : RunSt) (k : String) (v : Option Enriched)
    (h : cacheGet cache k = some v) :
    cacheGet (enrichMovie kp o now title cache st).cache k = some v := by
  unfold enrichMovie
  cases hkey : cacheGet cache (enrichKey title) with
  | some w => simpa [hkey]
  | none =>
    cases hk : kp <;>
      simp [hkey, dictSet_absent _ _ _ hkey, cacheGet_append_mono _ _ _ _ h]

/-- With an exhausted budget, enrich_movie touches neither counter. -/
theorem enrichMovie_frozen (kp : Bool) (o : Oracle) (now : String) (title : PyVal)
    (cache : Cache) (st : RunSt) (h : OMDB_DAILY_LIMIT ≤ st.omdbCallCount) :
    (enrichMovie kp o now title cache st).st.omdbCallCount = st.omdbCallCount ∧
    (enrichMovie kp o now title cache st).st.getIndex = st.getIndex := by
  unfold enrichMovie
  cases hkey : cacheGet cache (enrichKey title) with
  | some w => simp [hkey]
  | none =>
    cases hk : kp
    · simp [hkey]
    · have hf := fallback_frozen true o (clean_title_for_query title).data
        (extract_year_from_title title) st h
      simp only [hkey, Bool.not_true, Bool.false_eq_true, if_false]
      exact ⟨hf.2.1, hf.2.2⟩

/-- With an exhausted budget and an uncached key, enrich_movie returns None,
caches None under the key, and issues no request. -/
theorem enrichMovie_limited_miss (o : Oracle) (now : String) (title : PyVal)
    (cache : Cache) (st : RunSt) (h : OMDB_DAILY_LIMIT ≤ st.omdbCallCount)
    (hm : cacheGet cache (enrichKey title) = none) :
    (enrichMovie true o now title cache st).result = none ∧
    (enrichMovie true o now title cache st).cache = cache ++ [(enrichKey title, none)] := by
  have hf := fallback_frozen true o (clean_title_for_query title).data
    (extract_year_from_title title) st h
  unfold enrichMovie
  simp [hm, hf.1, dictSet_absent _ _ _ hm]

/-- enrich_movie preserves the counter bound of the daily limit plus two. -/
theorem enrichMovie_count_preserve (kp : Bool) (o : Oracle) (now : String)
    (title : PyVal) (cache : Cache) (st : RunSt)
    (h : st.omdbCallCount ≤ OMDB_DAILY_LIMIT + 2) :
    (enrichMovie kp o now title cache st).st.omdbCallCount ≤ OMDB_DAILY_LIMIT + 2 := by
  unfold enrichMovie
  cases hkey : cacheGet cache (enrichKey title) with
  | some w => simpa [hkey]
  | none =>
    cases hk : kp
    · simpa [hkey]
    · have hf := fallback_count_preserve true o (clean_title_for_query title).data
        (extract_year_from_title title) st h
      simpa [hkey] using hf

/-- A movie loop started with the flag set returns its state unchanged. -/
theorem movieLoop_flag (kp : Bool) (o : Oracle) (now : String) (ne : Bool)
    (lim : Option Nat) (rows : List MovieRow) (s : LoopState)
    (h : s.st.rateLimited = true) :
    movieLoop kp o now ne lim rows s = s := by
  cases rows <;> simp [movieLoop, h]

/-- The client state after one loop body: unchanged when no_enrich is set,
the state of the enrich_movie call otherwise. -/
theorem loopStep_st (kp : Bool) (o : Oracle) (now : String) (ne : Bool)
    (row : MovieRow) (mid : Int) (s : LoopState) :
    (loopStep kp o now ne row mid s).st =
      if ne then s.st else (enrichMovie kp o now row.title s.cache s.st).st := by
  cases hne : ne <;> simp [loopStep]

/-- A movie loop started with an exhausted budget issues no request and
leaves the counter unchanged. -/
theorem movieLoop_frozen (kp : Bool) (o : Oracle) (now : String) (ne : Bool)
    (lim : Option Nat) (rows : List MovieRow) (s : LoopState)
    (h : OMDB_DAILY_LIMIT ≤ s.st.omdbCallCount) :
    (movieLoop kp o now ne lim rows s).st.omdbCallCount = s.st.omdbCallCount ∧
    (movieLoop kp o now ne lim rows s).st.getIndex = s.st.getIndex := by
  induction rows generalizing s with
  | nil => simp [movieLoop]
  | cons row rest ih =>
    simp only [movieLoop]
    split
    · exact ⟨rfl, rfl⟩
    split
    · exact ⟨rfl, rfl⟩
    cases hmid : row.movieId with
    | none => exact ih s h
    | some mid =>
      simp only []
      have hst := loopStep_st kp o now ne row mid s
      have hcount : (loopStep kp o now ne row mid s).st.omdbCallCount = s.st.omdbCallCount := by
        rw [hst]
        cases hne : ne
        · simp only [Bool.false_eq_true, if_false]
          exact (enrichMovie_frozen kp o now row.title s.cache s.st h).1
        · simp
      have hidx : (loopStep kp o now ne row mid s).st.getIndex = s.st.getIndex := by
        rw [hst]
        cases hne : ne
        · simp only [Bool.false_eq_true, if_false]
          exact (enrichMovie_frozen kp o now row.title s.cache s.st h).2
        · simp
      have ih2 := ih (loopStep kp o now ne row mid s) (by rw [hcount]; exact h)
      exact ⟨ih2.1.trans hcount, ih2.2.trans hidx⟩

/-- The movie loop preserves the counter bound of the daily limit plus
two. -/
theorem movieLoop_count_preserve (kp : Bool) (o : Oracle) (now : String) (ne : Bool)
    (lim : Option Nat) (rows : List MovieRow) (s : LoopState)
    (h : s.st.omdbCallCount ≤ OMDB_DAILY_LIMIT + 2) :
    (movieLoop kp o now ne lim rows s).st.omdbCallCount ≤ OMDB_DAILY_LIMIT + 2 := by
  induction rows generalizing s with
  | nil => simpa [movieLoop]
  | cons row rest ih =>
    simp only [movieLoop]
    split
    · exact h
    split
    · exact h
    cases hmid : row.movieId with
    | none => exact ih s h
    | some mid =>
      simp only []
      have hst := loopStep_st kp o now ne row mid s
      have h2 : (loopStep kp o now ne row mid s).st.omdbCallCount ≤ OMDB_DAILY_LIMIT + 2 := by
        rw [hst]
        cases hne : ne
        · simp only [Bool.false_eq_true, if_false]
          exact enrichMovie_count_preserve kp o now row.title s.cache s.st h
        · simpa
      exact ih (loopStep kp o now ne row mid s) h2

/-- The anchored match succeeds exactly on a parenthesized four-digit year at
the head of the list, and returns its value. -/
theorem yearAt_eq_some (l : List Char) (y : Nat) :
    yearAt l = some y ↔ YearOccAt l 0 y := by
  constructor
  · intro h
    rcases l with _ | ⟨c0, _ | ⟨d1, _ | ⟨d2, _ | ⟨d3, _ | ⟨d4, _ | ⟨c5, rest⟩⟩⟩⟩⟩⟩ <;>
      simp [yearAt] at h
    obtain ⟨⟨hc0, h1, h2, h3, h4, hc5⟩, hval⟩ := h
    subst hc0
    subst hc5
    exact ⟨d1, d2, d3, d4, rest, by rw [List.drop_zero], h1, h2, h3, h4, hval.symm⟩
  · rintro ⟨d1, d2, d3, d4, rest, hdrop, h1, h2, h3, h4, hy⟩
    rw [List.drop_zero] at hdrop
    subst hdrop
    simp [yearAt, h1, h2, h3, h4, hy]

/-- re.search returns the leftmost match: the value returned by the scan is
a year occurrence, and no occurrence starts earlier. -/
theorem extractYearL_first (l : List Char) (y : Nat) (h : extractYearL l = some y) :
    ∃ i, YearOccAt l i y ∧ ∀ j y', YearOccAt l j y' → i ≤ j := by
  induction l with
  | nil => simp [extractYearL] at h
  | cons c rest ih =>
    rw [extractYearL] at h
    cases hy0 : yearAt (c :: rest) with
    | some y0 =>
      rw [hy0] at h
      injection h with h
      subst h
      exact ⟨0, (yearAt_eq_some _ _).mp hy0, fun j y' _ => Nat.zero_le j⟩
    | none =>
      rw [hy0] at h
      obtain ⟨i, hocc, hmin⟩ := ih h
      refine ⟨i + 1, ?_, ?_⟩
      · obtain ⟨d1, d2, d3, d4, r2, hdrop, h1, h2, h3, h4, hval⟩ := hocc
        exact ⟨d1, d2, d3, d4, r2, by simpa using hdrop, h1, h2, h3, h4, hval⟩
      · intro j y' hj
        cases j with
        | zero =>
          exfalso
          have hsome := (yearAt_eq_some (c :: rest) y').mpr hj
          rw [hy0] at hsome
          cases hsome
        | succ j' =>
          have hj' : YearOccAt rest j' y' := by
            obtain ⟨d1, d2, d3, d4, r2, hdrop, h1, h2, h3, h4, hval⟩ := hj
            exact ⟨d1, d2, d3, d4, r2, by simpa using hdrop, h1, h2, h3, h4, hval⟩
          exact Nat.succ_le_succ (hmin j' y' hj')

/-- The list contents at a position determine the occurrence's value. -/
theorem yearOcc_unique (l : List Char) (i : Nat) (y y' : Nat)
    (h : YearOccAt l i y) (h' : YearOccAt l i y') : y = y' := by
  obtain ⟨d1, d2, d3, d4, r, hdrop, h1, h2, h3, h4, hval⟩ := h
  obtain ⟨e1, e2, e3, e4, r', hdrop', g1, g2, g3, g4, hval'⟩ := h'
  rw [hdrop] at hdrop'
  simp only [List.cons.injEq] at hdrop'
  obtain ⟨-, he1, he2, he3, he4, -⟩ := hdrop'
  subst he1
  subst he2
  subst he3
  subst he4
  rw [hval, hval']

/-- The scan of re.search succeeds whenever some occurrence exists. -/
theorem extractYearL_complete (l : List Char) (i y : Nat) (h : YearOccAt l i y) :
    ∃ y0, extractYearL l = some y0 := by
  induction l generalizing i with
  | nil =>
    obtain ⟨d1, d2, d3, d4, r, hdrop, -⟩ := h
    simp at hdrop
  | cons c rest ih =>
    rw [extractYearL]
    cases hy0 : yearAt (c :: rest) with
    | some y0 => exact ⟨y0, rfl⟩
    | none =>
      cases i with
      | zero =>
        exfalso
        have hsome := (yearAt_eq_some (c :: rest) y).mpr h
        rw [hy0] at hsome
        cases hsome
      | succ j =>
        have hj : YearOccAt rest j y := by
          obtain ⟨d1, d2, d3, d4, r, hdrop, h1, h2, h3, h4, hval⟩ := h
          exact ⟨d1, d2, d3, d4, r, by simpa using hdrop, h1, h2, h3, h4, hval⟩
        exact ih j hj

/-- Dropping a satisfying block before a list. -/
theorem dropWhile_append_all {α : Type} (p : α → Bool) (u v : List α)
    (h : ∀ c ∈ u, p c = true) : (u ++ v).dropWhile p = v.dropWhile p := by
  induction u with
  | nil => simp
  | cons a u ih =>
    have ha := h a (by simp)
    simp only [List.cons_append, List.dropWhile_cons, ha, if_true]
    exact ih (fun c hc => h c (by simp [hc]))

/-- Trailing whitespace is invisible to the right strip. -/
theorem rstripL_append_spaces (a w : List Char) (h : ∀ c ∈ w, isSpace c = true) :
    rstripL (a ++ w) = rstripL a := by
  unfold rstripL
  rw [List.reverse_append,
    dropWhile_append_all isSpace w.reverse a.reverse
      (fun c hc => h c (List.mem_reverse.mp hc))]

/-- The right strip of a list ending in a non-space character is the list
itself. -/
theorem rstripL_ends_nonspace (a : List Char) (c : Char) (h : isSpace c = false) :
    rstripL (a ++ [c]) = a ++ [c] := by
  unfold rstripL
  rw [List.reverse_append]
  simp [List.dropWhile_cons, h]

/-- Every list is its right strip followed by whitespace. -/
theorem rstripL_decomp (l : List Char) :
    ∃ w, l = rstripL l ++ w ∧ ∀ c ∈ w, isSpace c = true := by
  refine ⟨(l.reverse.takeWhile isSpace).reverse, ?_, ?_⟩
  · unfold rstripL
    rw [← List.reverse_append, List.takeWhile_append_dropWhile, List.reverse_reverse]
  · intro c hc
    exact List.mem_takeWhile_imp (List.mem_reverse.mp hc)

/-- The trailing-parenthetical test on an explicit concatenation. -/
theorem endsYearParen_concat (x : List Char) (d1 d2 d3 d4 : Char) :
    endsYearParen (x ++ ['(', d1, d2, d3, d4, ')']) =
      (d1.isDigit && d2.isDigit && d3.isDigit && d4.isDigit) := by
  unfold endsYearParen
  rw [List.reverse_append]
  simp

/-- Leading into the strip, trailing whitespace is invisible. -/
theorem stripL_append_spaces (p w : List Char) (h : ∀ c ∈ w, isSpace c = true) :
    stripL (p ++ w) = stripL p := by
  unfold stripL
  rw [rstripL_append_spaces p w h]

/-- On a title with a trailing parenthesized year, clean_title_for_query
removes exactly the parenthetical and its surrounding whitespace. -/
theorem cleanTitleL_decomp (l p : List Char) (h : TrailingYearDecomp l p) :
    cleanTitleL l = stripL p := by
  obtain ⟨w1, d1, d2, d3, d4, w2, hw1, hw2, h1, h2, h3, h4, hl⟩ := h
  subst hl
  have hgroup : p ++ w1 ++ '(' :: d1 :: d2 :: d3 :: d4 :: ')' :: w2 =
      ((p ++ w1) ++ ['(', d1, d2, d3, d4, ')']) ++ w2 := by simp
  rw [hgroup]
  have hgroup2 : (p ++ w1) ++ ['(', d1, d2, d3, d4, ')'] =
      ((p ++ w1) ++ ['(', d1, d2, d3, d4]) ++ [')'] := by simp
  have hre : rstripL ((p ++ w1) ++ ['(', d1, d2, d3, d4, ')']) =
      (p ++ w1) ++ ['(', d1, d2, d3, d4, ')'] := by
    rw [hgroup2]
    rw [rstripL_ends_nonspace _ _ (by rfl)]
  have hcond : endsYearParen ((p ++ w1) ++ ['(', d1, d2, d3, d4, ')']) = true := by
    rw [endsYearParen_concat, h1, h2, h3, h4]
    rfl
  have hlen : ((p ++ w1) ++ ['(', d1, d2, d3, d4, ')']).length - 6 = (p ++ w1).length := by
    simp
    omega
  simp only [cleanTitleL]
  rw [rstripL_append_spaces _ w2 hw2, hre, hcond, if_pos rfl, hlen, List.take_left]
  exact stripL_append_spaces p w1 hw1

/-- When the right-trimmed title ends with a parenthesized year, the title
decomposes accordingly. -/
theorem ends_decomp (l : List Char) (h : endsYearParen (rstripL l) = true) :
    ∃ p, TrailingYearDecomp l p := by
  obtain ⟨w2, hw2eq, hw2⟩ := rstripL_decomp l
  unfold endsYearParen at h
  split at h
  · rename_i c5 d4 d3 d2 d1 c0 rest heq
    simp only [Bool.and_eq_true, decide_eq_true_eq] at h
    obtain ⟨⟨⟨⟨⟨hc5, hc0⟩, h1⟩, h2⟩, h3⟩, h4⟩ := h
    subst hc5
    subst hc0
    have hr : rstripL l = rest.reverse ++ ['(', d1, d2, d3, d4, ')'] := by
      have hrev := congrArg List.reverse heq
      simpa using hrev
    refine ⟨rest.reverse, [], d1, d2, d3, d4, w2, by simp, hw2, h1, h2, h3, h4, ?_⟩
    rw [hw2eq, hr]
    simp
  · cases h

/-- Without a trailing parenthesized year, clean_title_for_query only trims
whitespace. -/
theorem cleanTitleL_no_decomp (l : List Char) (h : ∀ p, ¬ TrailingYearDecomp l p) :
    cleanTitleL l = stripL l := by
  simp only [cleanTitleL]
  cases hE : endsYearParen (rstripL l)
  · simp
  · exfalso
    obtain ⟨p, hp⟩ := ends_decomp l hE
    exact h p hp

/-- A trailing-year decomposition makes the trailing-parenthetical test
succeed. -/
theorem decomp_ends (l p : List Char) (h : TrailingYearDecomp l p) :
    endsYearParen (rstripL l) = true := by
  obtain ⟨w1, d1, d2, d3, d4, w2, hw1, hw2, h1, h2, h3, h4, hl⟩ := h
  subst hl
  have hgroup : p ++ w1 ++ '(' :: d1 :: d2 :: d3 :: d4 :: ')' :: w2 =
      ((p ++ w1) ++ ['(', d1, d2, d3, d4, ')']) ++ w2 := by simp
  have hgroup2 : (p ++ w1) ++ ['(', d1, d2, d3, d4, ')'] =
      ((p ++ w1) ++ ['(', d1, d2, d3, d4]) ++ [')'] := by simp
  rw [hgroup, rstripL_append_spaces _ w2 hw2, hgroup2, rstripL_ends_nonspace _ _ (by rfl),
    ← hgroup2, endsYearParen_concat, h1, h2, h3, h4]
  rfl

/-- The conflict policy of insert_rating_query on a table already holding a
row with the incoming (userId, movieId) identity. -/
theorem upsertRating_existing (t : List RatingRow) (r0 : Rat) (ts0 : Option String)
    (n : RatingRow)
    (h : findRating t n.userId n.movieId = some ⟨n.userId, n.movieId, r0, ts0⟩) :
    findRating (upsertRating t n) n.userId n.movieId =
      some ⟨n.userId, n.movieId, n.rating,
        match n.timestamp with | some v => some v | none => ts0⟩ := by
  unfold findRating at h
  have hmem := List.mem_of_find?_eq_some h
  have hp := List.find?_some h
  have hany : t.any
      (fun r => decide (r.userId = n.userId) && decide (r.movieId = n.movieId)) = true :=
    List.any_eq_true.mpr ⟨_, hmem, hp⟩
  unfold upsertRating findRating
  rw [if_pos hany, List.find?_map]
  have hfun : ((fun r : RatingRow =>
        decide (r.userId = n.userId) && decide (r.movieId = n.movieId)) ∘
      fun r => if r.userId = n.userId ∧ r.movieId = n.movieId then
        { r with rating := n.rating,
                 timestamp := match n.timestamp with
                   | some v => some v
                   | none => r.timestamp }
      else r) =
      fun r : RatingRow =>
        decide (r.userId = n.userId) && decide (r.movieId = n.movieId) := by
    funext r
    by_cases hr : r.userId = n.userId ∧ r.movieId = n.movieId
    · simp [Function.comp, hr]
    · simp [Function.comp, hr]
  rw [hfun, h]
  simp

/-- C2: for every existing ratings row keyed by (userId, movieId), upserting
a new record for the same pair always overwrites rating, and overwrites
timestamp only when the incoming timestamp is non-null. -/
theorem ratings_upsert_conflict_policy (t : List RatingRow) (u m : Int) (r0 r1 : Rat)
    (ts0 : Option String) (ts1 : String)
    (h : findRating t u m = some ⟨u, m, r0, ts0⟩) :
    findRating (upsertRating t ⟨u, m, r1, none⟩) u m = some ⟨u, m, r1, ts0⟩ ∧
    findRating (upsertRating t ⟨u, m, r1, some ts1⟩) u m = some ⟨u, m, r1, some ts1⟩ := by
  constructor
  · have hg := upsertRating_existing t r0 ts0 ⟨u, m, r1, none⟩ h
    simpa using hg
  · have hg := upsertRating_existing t r0 ts0 ⟨u, m, r1, some ts1⟩ h
    simpa using hg

/-- Witness for the ratings conflict policy at the specification's concrete
instance: an existing row (1, 1, 3.0, T1), upserted with (1, 1, 4.5, null)
and with (1, 1, 4.5, T2). -/
theorem ratings_upsert_conflict_policy_witness :
    findRating (upsertRating [⟨1, 1, 3, some ("T1")⟩] ⟨1, 1, 9/2, none⟩) 1 1 =
      some ⟨1, 1, 9/2, some ("T1")⟩ ∧
    findRating (upsertRating [⟨1, 1, 3, some ("T1")⟩] ⟨1, 1, 9/2, some ("T2")⟩) 1 1 =
      some ⟨1, 1, 9/2, some ("T2")⟩ :=
  ratings_upsert_conflict_policy [⟨1, 1, 3, some ("T1")⟩] 1 1 3 (9/2) (some ("T1")) ("T2")
    (by decide)

/-- C4 (amended): errors of the external service and of per-row or per-chunk
database operations never influence the exit status (the oracle and row
parameters do not occur in the condition); a database error during
connection and a missing movies.csv are caught and end the run with exit
code zero; the exit status is nonzero exactly when connection raises a
non-database error or the requested ratings-table recreation fails. -/
theorem error_propagation_amended (env : MainEnv) (kp : Bool) (o : Oracle)
    (now : String) (noEnrich : Bool) (limit : Option Nat) (recreateRatings : Bool) :
    mainExit env kp o now noEnrich limit recreateRatings = .nonzero ↔
      (env.conn = .otherError ∨
        (env.conn = .ok ∧ recreateRatings = true ∧ env.recreateFatal = true)) := by
  cases hc : env.conn <;> simp [mainExit, hc]

/-- Witness for the amended propagation policy: a database error during
connection ends the run with exit code zero. -/
theorem error_propagation_amended_witness :
    mainExit ⟨.dbError, false, true, [], [], false, false, [], false⟩ true failOracle ("T")
        true none false = .nonzero ↔
      (ConnOutcome.dbError = .otherError ∨
        (ConnOutcome.dbError = .ok ∧ false = true ∧ false = true)) :=
  error_propagation_amended ⟨.dbError, false, true, [], [], false, false, [], false⟩
    true failOracle ("T") true none false

/-- C4 counterexample: with a successful connection and a failing requested
ratings-table recreation, the process exits nonzero although no unhandled
fatal error occurred during connection, so the claim's exit-code clause is
false on the code. -/
theorem error_propagation_counterexample :
    mainExit ⟨.ok, true, true, [], [], false, false, [], false⟩ true failOracle ("T")
        true none true = .nonzero ∧
    ConnOutcome.ok ≠ ConnOutcome.otherError :=
  ⟨rfl, by decide⟩

/-- C6 (amended): extract_year_from_title returns some y exactly when y is
the value of the first parenthesized four-digit year occurring at any
position of the string title — in particular, whenever any occurrence
exists, the first occurrence's value is returned — and none when there is no
occurrence or the input is not a string; clean_title_for_query removes
exactly a trailing parenthesized year together with its surrounding
whitespace when one exists, otherwise returns the whitespace-trimmed input,
and returns the empty string on non-string input. -/
theorem title_normalization_amended :
    (∀ s y, extract_year_from_title (.str s) = some y ↔
      ∃ i, YearOccAt s.data i y ∧ ∀ j y', YearOccAt s.data j y' → i ≤ j) ∧
    (∀ s, (∀ i y, ¬ YearOccAt s.data i y) → extract_year_from_title (.str s) = none) ∧
    (∀ s p, TrailingYearDecomp s.data p →
      clean_title_for_query (.str s) = String.mk (stripL p)) ∧
    (∀ s, (∀ p, ¬ TrailingYearDecomp s.data p) →
      clean_title_for_query (.str s) = String.mk (stripL s.data)) ∧
    extract_year_from_title .nonStr = none ∧ clean_title_for_query .nonStr = "" := by
  refine ⟨?_, ?_, ?_, ?_, rfl, rfl⟩
  · intro s y
    constructor
    · intro h
      exact extractYearL_first s.data y h
    · rintro ⟨i, hocc, hmin⟩
      obtain ⟨y0, hy0⟩ := extractYearL_complete s.data i y hocc
      obtain ⟨i0, hocc0, hmin0⟩ := extractYearL_first s.data y0 hy0
      have hii : i = i0 := Nat.le_antisymm (hmin i0 y0 hocc0) (hmin0 i y hocc)
      subst hii
      have hyy : y = y0 := yearOcc_unique s.data i y y0 hocc hocc0
      rw [hyy]
      exact hy0
  · intro s h
    cases hx : extractYearL s.data with
    | none => simp [extract_year_from_title, hx]
    | some y =>
      obtain ⟨i, hocc, _⟩ := extractYearL_first s.data y hx
      exact absurd hocc (h i y)
  · intro s p hp
    simp [clean_title_for_query, cleanTitleL_decomp s.data p hp]
  · intro s h
    simp [clean_title_for_query, cleanTitleL_no_decomp s.data h]

/-- Witness for the amended title normalization: both directions of the
first-occurrence characterization at a concrete title, and the trailing
removal at a concrete decomposition of another. -/
theorem title_normalization_amended_witness :
    (∃ i, YearOccAt (String.data ("(1999)")) i 1999 ∧
      ∀ j y', YearOccAt (String.data ("(1999)")) j y' → i ≤ j) ∧
    extract_year_from_title (.str ("(1999)")) = some 1999 ∧
    clean_title_for_query (.str ("A (1999)")) = String.mk (stripL (String.data ("A"))) :=
  ⟨(title_normalization_amended.1 ("(1999)") 1999).mp (by decide),
   (title_normalization_amended.1 ("(1999)") 1999).mpr
     ⟨0, ⟨'1', '9', '9', '9', [], by decide, by decide, by decide, by decide, by decide,
       by decide⟩, fun j y' _ => Nat.zero_le j⟩,
   title_normalization_amended.2.2.1 ("A (1999)") (String.data ("A"))
     ⟨[' '], '1', '9', '9', '9', [], by decide, by decide, by decide, by decide, by decide,
       by decide, by decide⟩⟩

/-- C6 counterexample: the title has no trailing parenthesized year, yet
extract_year_from_title returns 1999 (the first match at any position), not
none as the claim states for titles without the trailing pattern. -/
theorem title_normalization_counterexample :
    (¬ ∃ p, TrailingYearDecomp (String.data ("Foo (1999) bar")) p) ∧
    extract_year_from_title (.str ("Foo (1999) bar")) = some 1999 := by
  constructor
  · rintro ⟨p, hp⟩
    have hE := decomp_ends _ p hp
    have hF : endsYearParen (rstripL (String.data ("Foo (1999) bar"))) = false := by decide
    rw [hF] at hE
    cases hE
  · decide

/-- C7: every enrich_movie call leaves the computed key bound to exactly the
returned value (an enrichment record on success, None on any failure), and
never removes or overwrites an entry already in the cache, so the cache only
grows within a run. -/
theorem cache_entry_invariant (kp : Bool) (o : Oracle) (now : String) (title : PyVal)
    (cache : Cache) (st : RunSt) :
    cacheGet (enrichMovie kp o now title cache st).cache (enrichKey title) =
      some (enrichMovie kp o now title cache st).result ∧
    ∀ k v, cacheGet cache k = some v →
      cacheGet (enrichMovie kp o now title cache st).cache k = some v :=
  ⟨enrichMovie_caches kp o now title cache st,
   fun k v h => enrichMovie_mono kp o now title cache st k v h⟩

/-- Witness for the cache-entry invariant at a concrete call. -/
theorem cache_entry_invariant_witness :
    cacheGet (enrichMovie true failOracle ("T") (.str ("A")) [("k", none)] ⟨0, false, 0⟩).cache
        (enrichKey (.str ("A"))) =
      some (enrichMovie true failOracle ("T") (.str ("A")) [("k", none)] ⟨0, false, 0⟩).result ∧
    cacheGet (enrichMovie true failOracle ("T") (.str ("A")) [("k", none)] ⟨0, false, 0⟩).cache
        ("k") = some none :=
  ⟨(cache_entry_invariant true failOracle ("T") (.str ("A")) [("k", none)] ⟨0, false, 0⟩).1,
   (cache_entry_invariant true failOracle ("T") (.str ("A")) [("k", none)] ⟨0, false, 0⟩).2
     ("k") none (by decide)⟩

/-- C3: when the computed key is already cached, enrich_movie issues no
external call, leaves the cache and client state unchanged, and returns
exactly the cached value; in particular a rerun after any prior enrich_movie
call on the same title returns that prior result. -/
theorem warm_cache_idempotence :
    (∀ (kp : Bool) (o : Oracle) (now : String) (title : PyVal) (cache : Cache) (st : RunSt) v,
      cacheGet cache (enrichKey title) = some v →
      enrichMovie kp o now title cache st = ⟨v, cache, st, []⟩) ∧
    (∀ (kp : Bool) (o : Oracle) (now : String) (title : PyVal) (cache : Cache)
        (st : RunSt) (kp2 : Bool) (o2 : Oracle) (now2 : String) (st2 : RunSt),
      enrichMovie kp2 o2 now2 title (enrichMovie kp o now title cache st).cache st2 =
        ⟨(enrichMovie kp o now title cache st).result,
         (enrichMovie kp o now title cache st).cache, st2, []⟩) := by
  constructor
  · exact fun kp o now title cache st v h => enrichMovie_hit kp o now title cache st v h
  · intro kp o now title cache st kp2 o2 now2 st2
    exact enrichMovie_hit kp2 o2 now2 title _ st2 _ (enrichMovie_caches kp o now title cache st)

/-- Witness for warm-cache idempotence: a concrete hit, and a concrete rerun
after a cold call. -/
theorem warm_cache_idempotence_witness :
    enrichMovie true failOracle ("T") (.str ("A")) [("A__", none)] ⟨0, false, 0⟩ =
      ⟨none, [("A__", none)], ⟨0, false, 0⟩, []⟩ ∧
    enrichMovie true failOracle ("T2") (.str ("B"))
        (enrichMovie true failOracle ("T") (.str ("B")) [] ⟨0, false, 0⟩).cache ⟨5, false, 7⟩ =
      ⟨(enrichMovie true failOracle ("T") (.str ("B")) [] ⟨0, false, 0⟩).result,
       (enrichMovie true failOracle ("T") (.str ("B")) [] ⟨0, false, 0⟩).cache,
       ⟨5, false, 7⟩, []⟩ :=
  ⟨warm_cache_idempotence.1 true failOracle ("T") (.str ("A")) [("A__", none)] ⟨0, false, 0⟩
     none (by decide),
   warm_cache_idempotence.2 true failOracle ("T") (.str ("B")) [] ⟨0, false, 0⟩
     true failOracle ("T2") ⟨5, false, 7⟩⟩

/-- C9: with the budget already exhausted and the key uncached, enrich_movie
issues no request, returns None, and caches None under the key exactly as a
confirmed miss would, so a warm-cache rerun (even with the budget reset)
returns None without any external call; the cache cannot distinguish the
rate-limited skip from a genuine miss. -/
theorem rate_limited_miss_cached (o : Oracle) (now : String) (title : PyVal)
    (cache : Cache) (st : RunSt)
    (hb : OMDB_DAILY_LIMIT ≤ st.omdbCallCount)
    (hm : cacheGet cache (enrichKey title) = none) :
    (enrichMovie true o now title cache st).result = none ∧
    (enrichMovie true o now title cache st).st.getIndex = st.getIndex ∧
    cacheGet (enrichMovie true o now title cache st).cache (enrichKey title) = some none ∧
    ∀ (o2 : Oracle) (now2 : String) (st2 : RunSt),
      enrichMovie true o2 now2 title (enrichMovie true o now title cache st).cache st2 =
        ⟨none, (enrichMovie true o now title cache st).cache, st2, []⟩ := by
  have hlim := enrichMovie_limited_miss o now title cache st hb hm
  have hfz := enrichMovie_frozen true o now title cache st hb
  have hkey : cacheGet (enrichMovie true o now title cache st).cache (enrichKey title) =
      some none := by
    rw [hlim.2]
    exact cacheGet_append_fresh cache _ none hm
  refine ⟨hlim.1, hfz.2, hkey, ?_⟩
  intro o2 now2 st2
  exact enrichMovie_hit true o2 now2 title _ st2 none hkey

/-- Witness for the rate-limited cached miss at a concrete exhausted
state. -/
theorem rate_limited_miss_cached_witness :
    (enrichMovie true failOracle ("T") (.str ("A")) [] ⟨1000, false, 3⟩).result = none ∧
    (enrichMovie true failOracle ("T") (.str ("A")) [] ⟨1000, false, 3⟩).st.getIndex = 3 ∧
    cacheGet (enrichMovie true failOracle ("T") (.str ("A")) [] ⟨1000, false, 3⟩).cache
      (enrichKey (.str ("A"))) = some none ∧
    enrichMovie true overshootOracle ("U") (.str ("A"))
        (enrichMovie true failOracle ("T") (.str ("A")) [] ⟨1000, false, 3⟩).cache ⟨0, false, 0⟩ =
      ⟨none, (enrichMovie true failOracle ("T") (.str ("A")) [] ⟨1000, false, 3⟩).cache,
       ⟨0, false, 0⟩, []⟩ := by
  have h := rate_limited_miss_cached failOracle ("T") (.str ("A")) [] ⟨1000, false, 3⟩
    (by decide) (by decide)
  exact ⟨h.1, h.2.1, h.2.2.1, h.2.2.2 overshootOracle ("U") ⟨0, false, 0⟩⟩

/-- C1 (amended): once the call budget is exhausted, no further external
request is issued for the rest of the run; and once RateLimitFlag is set,
the movie loop stops before the next row, so the remaining rows receive
neither their base upsert nor enrichment (the loop state is returned
unchanged). -/
theorem rate_limit_containment_amended (kp : Bool) (o : Oracle) (now : String)
    (ne : Bool) (lim : Option Nat) (rows : List MovieRow) (s : LoopState) :
    (OMDB_DAILY_LIMIT ≤ s.st.omdbCallCount →
      (movieLoop kp o now ne lim rows s).st.getIndex = s.st.getIndex) ∧
    (s.st.rateLimited = true → movieLoop kp o now ne lim rows s = s) :=
  ⟨fun h => (movieLoop_frozen kp o now ne lim rows s h).2,
   fun h => movieLoop_flag kp o now ne lim rows s h⟩

/-- Witness for the amended rate-limit containment at concrete states. -/
theorem rate_limit_containment_amended_witness :
    (movieLoop true failOracle ("T") false none cexRows
      ⟨⟨1000, false, 7⟩, [], 0, 0, [], []⟩).st.getIndex = 7 ∧
    movieLoop true failOracle ("T") false none cexRows
      ⟨⟨0, true, 0⟩, [], 0, 0, [], []⟩ = ⟨⟨0, true, 0⟩, [], 0, 0, [], []⟩ :=
  ⟨(rate_limit_containment_amended true failOracle ("T") false none cexRows
      ⟨⟨1000, false, 7⟩, [], 0, 0, [], []⟩).1 (by decide),
   (rate_limit_containment_amended true failOracle ("T") false none cexRows
      ⟨⟨0, true, 0⟩, [], 0, 0, [], []⟩).2 rfl⟩

/-- C1 counterexample: in this run a 401 sets RateLimitFlag during the first
row's enrichment; the loop stops before the second row, whose base upsert is
never issued — contradicting the claim that every remaining movie row still
receives its base upsert in such runs. -/
theorem rate_limit_containment_counterexample :
    (movieLoop true all401Oracle ("T") false none cexRows (loopInit [])).st.rateLimited = true ∧
    (movieLoop true all401Oracle ("T") false none cexRows (loopInit [])).upserts =
      [(1, .str ("A"), some ("X"))] := by
  constructor
  · decide
  · decide

/-- C5 (amended): only the first (title-lookup) request's status code is
compared with 401: when the budget is not exhausted, the key is configured,
and the first issued request returns status 401, query_omdb sets
RateLimitFlag and returns None immediately after that single request. -/
theorem unauthorized_sets_flag_amended (o : Oracle) (t : List Char) (y : Option Nat)
    (st : RunSt) (hb : st.omdbCallCount < OMDB_DAILY_LIMIT)
    (h401 : outcomeStatus (o st.getIndex) = some 401) :
    queryOmdb true o t y st = (none, ⟨st.omdbCallCount + 1, true, st.getIndex + 1⟩) := by
  unfold queryOmdb
  rw [if_neg (by omega)]
  rw [if_neg (by simp)]
  cases ho : o st.getIndex with
  | exn =>
    rw [ho] at h401
    cases h401
  | badJson s =>
    rw [ho] at h401
    simp only [outcomeStatus, Option.some_inj] at h401
    subst h401
    simp [bumpReq]
  | resp s b =>
    rw [ho] at h401
    simp only [outcomeStatus, Option.some_inj] at h401
    subst h401
    simp [bumpReq]

/-- Witness for the amended 401 handling at a concrete first-request 401. -/
theorem unauthorized_sets_flag_amended_witness :
    queryOmdb true all401Oracle ['t'] none ⟨0, false, 0⟩ = (none, ⟨1, true, 1⟩) :=
  unauthorized_sets_flag_amended all401Oracle ['t'] none ⟨0, false, 0⟩ (by decide) (by decide)

/-- C5 counterexample: the second issued request (the search) receives a 401
in this run, yet query_omdb returns with RateLimitFlag still unset — the
401 check covers only the title-lookup request. -/
theorem unauthorized_sets_flag_counterexample :
    outcomeStatus (search401Oracle 1) = some 401 ∧
    1 < (queryOmdb true search401Oracle ['t'] none ⟨0, false, 0⟩).2.getIndex ∧
    (queryOmdb true search401Oracle ['t'] none ⟨0, false, 0⟩).2.rateLimited = false := by
  refine ⟨by decide, by decide, by decide⟩

/-- C8 (amended): for an uncached title with the key configured, the
query_omdb invocations of enrich_movie are exactly the specification's
stop-at-first-success walk over the candidate list in which the
alternative-title step additionally requires the split prefix to be
nonempty (truthy), not merely different from the clean title. -/
theorem fallback_query_order_amended (o : Oracle) (now : String) (title : PyVal)
    (cache : Cache) (st : RunSt)
    (hm : cacheGet cache (enrichKey title) = none) :
    (enrichMovie true o now title cache st).attempts =
      (attemptWalk true o st
        (specCandidates (clean_title_for_query title).data
          (extract_year_from_title title) true)).2.2 := by
  unfold enrichMovie
  simp only [hm]
  simp only [Bool.not_true, Bool.false_eq_true, if_false]
  rw [fallback_eq_walk]

/-- Witness for the amended fallback order at a concrete uncached title. -/
theorem fallback_query_order_amended_witness :
    (enrichMovie true failOracle ("T") (.str ("A")) [] ⟨0, false, 0⟩).attempts =
      (attemptWalk true failOracle ⟨0, false, 0⟩
        (specCandidates (clean_title_for_query (.str ("A"))).data
          (extract_year_from_title (.str ("A"))) true)).2.2 :=
  fallback_query_order_amended failOracle ("T") (.str ("A")) [] ⟨0, false, 0⟩ (by decide)

/-- C8 counterexample: for a title whose clean form begins with a colon the
split prefix is empty yet differs from the clean title; the claim's sequence
(guarded only by difference) contains two further queries, while the code
issues none, so the attempt lists differ. -/
theorem fallback_query_order_counterexample :
    (enrichMovie true failOracle ("T") (.str (": Foo")) [] ⟨0, false, 0⟩).attempts ≠
      (attemptWalk true failOracle ⟨0, false, 0⟩
        (specCandidates (clean_title_for_query (.str (": Foo"))).data
          (extract_year_from_title (.str (": Foo"))) false)).2.2 := by
  decide

/-- C10: the daily budget is checked only on entry to query_omdb — an
invocation beginning strictly below the limit may issue up to three requests
without rechecking; throughout the movie loop the counter stays at most the
limit plus two; and the counter can strictly exceed the limit, attaining
limit plus two in a concrete run. -/
theorem call_budget_overshoot :
    (∀ (kp : Bool) (o : Oracle) (t : List Char) (y : Option Nat) (st : RunSt),
      st.omdbCallCount < OMDB_DAILY_LIMIT →
      (queryOmdb kp o t y st).2.omdbCallCount ≤ st.omdbCallCount + 3) ∧
    (∀ (kp : Bool) (o : Oracle) (now : String) (ne : Bool) (lim : Option Nat)
        (rows : List MovieRow) (s : LoopState),
      s.st.omdbCallCount ≤ OMDB_DAILY_LIMIT + 2 →
      (movieLoop kp o now ne lim rows s).st.omdbCallCount ≤ OMDB_DAILY_LIMIT + 2) ∧
    (queryOmdb true overshootOracle ['t'] none
        ⟨OMDB_DAILY_LIMIT - 1, false, 0⟩).2.omdbCallCount = OMDB_DAILY_LIMIT + 2 ∧
    OMDB_DAILY_LIMIT < OMDB_DAILY_LIMIT + 2 :=
  ⟨fun kp o t y st _ => queryOmdb_count_le kp o t y st,
   fun kp o now ne lim rows s h => movieLoop_count_preserve kp o now ne lim rows s h,
   by decide, by decide⟩

/-- Witness for the budget overshoot bounds at concrete inputs. -/
theorem call_budget_overshoot_witness :
    (queryOmdb true overshootOracle ['t'] none ⟨0, false, 0⟩).2.omdbCallCount ≤ 0 + 3 ∧
    (movieLoop true failOracle ("T") false none cexRows
      (loopInit [])).st.omdbCallCount ≤ OMDB_DAILY_LIMIT + 2 :=
  ⟨call_budget_overshoot.1 true overshootOracle ['t'] none ⟨0, false, 0⟩ (by decide),
   call_budget_overshoot.2.1 true failOracle ("T") false none cexRows (loopInit [])
     (by decide)⟩

end MovieETL
